import Mathlib

/-!
Verification development for a small pipeline that downloads a cloud
meeting's per-participant audio tracks, merges them into one multi-channel
file with an external encoding tool, transcribes the result in
multichannel mode, and labels each utterance with the participant whose
track occupies its channel.

The definitions below are a shallow embedding of the Python sources
`utils/__init__.py` (track combiner), `utils/zoom.py` (API client with a
cached OAuth token and a per-participant download helper) and `cloud.py`
(the end-to-end run).  Filesystem and network interaction is made explicit:
each operation takes the observations the code performs (directory
listings, existence checks, fetch outcomes) as arguments and returns the
effects it would perform as data.
-/

set_option maxRecDepth 8000

namespace ZoomTranscribe

/-! ### Effects

The externally visible actions of a run, in the order performed. -/

/-- One externally visible action of the pipeline. -/
inductive Effect where
  /-- `os.makedirs(p, exist_ok=True)` -/
  | makeDirs (p : String)
  /-- `requests.get(url, ...)` for a participant audio download -/
  | fetch (url : String)
  /-- `open(p, 'wb').write(content)` -/
  | writeFile (p : String) (content : List Nat)
  /-- `os.remove(p)` -/
  | removeFile (p : String)
  /-- `subprocess.run(cmd, ...)` on the external merge tool -/
  | invokeFfmpeg (cmd : List String)
  /-- `transcriber.transcribe(p)` -/
  | transcribe (p : String)
  /-- `save_transcript_to_json(..., filename=p)` -/
  | writeJson (p : String)
  deriving DecidableEq, Repr

/-! ### Python string operations

The Python string methods the sources use, implemented on the character
lists underlying `String` so that they compute by structural recursion.
-/

/-- Python `s.endswith(suffix)`. -/
def pyEndsWith (s suffix : String) : Bool :=
  suffix.data.isSuffixOf s.data

/-- Python `s.startswith(prefix)` (used to model which `tmp` entries a
directory listing shows). -/
def pyStartsWith (s pre : String) : Bool :=
  pre.data.isPrefixOf s.data

/-- Dropping the first `n` characters of a string. -/
def pyDrop (s : String) (n : Nat) : String :=
  ⟨s.data.drop n⟩

/-- Helper for `pySplitChar`: accumulate the current field (reversed). -/
def pySplitCharAux (sep : Char) : List Char → List Char → List (List Char)
  | [], acc => [acc.reverse]
  | c :: rest, acc =>
    if c = sep then acc.reverse :: pySplitCharAux sep rest []
    else pySplitCharAux sep rest (c :: acc)

/-- Python `s.split(sep)` for a single-character separator: the fields
between occurrences of `sep`, empty fields included, never the empty
list. -/
def pySplitChar (s : String) (sep : Char) : List String :=
  (pySplitCharAux sep s.data []).map (fun l => ⟨l⟩)

/-- Python `s.strip()`: remove leading and trailing whitespace. -/
def pyStrip (s : String) : String :=
  ⟨((s.data.dropWhile Char.isWhitespace).reverse.dropWhile
      Char.isWhitespace).reverse⟩

/-! ### Track combiner — `utils/__init__.py`, `combine_tracks`

```python
def combine_tracks(filepath="combined_audio.m4a", dir="tmp", safe=True):
    if safe and os.path.exists(filepath):
        raise FileExistsError(...)
    input_files = [os.path.join(dir, file) for file in os.listdir(dir)
                   if file.endswith('.m4a')]
    if not input_files:
        raise ValueError("No input files found in the 'tmp' directory.")
    ...
    subprocess.run(ffmpeg_command, ...)
```

The two filesystem observations the function makes — whether `filepath`
exists and the listing of `dir` — are passed in as `outputExists` and
`dirListing`.  The result is either one of the two precondition errors or
the external-tool command that would be run. -/

/-- Result of a `combine_tracks` call: `alreadyExists` models the
`FileExistsError` raised under `safe`, `noInput` the `ValueError` for an
empty eligible set, and `run cmd` a hand-off to the external tool. -/
inductive CombineResult where
  | alreadyExists (filepath : String)
  | noInput
  | run (cmd : List String)
  deriving DecidableEq, Repr

/-- The `ffmpeg_command` list built by `combine_tracks`: per input an
`-i file` pair, an N-way `amerge` filter graph, a `-map` of the merged
stream and an `-ac` channel count equal to the number of inputs.  The
first flag is `-y` (overwrite) when `safe` is false, `-n` otherwise. -/
def ffmpeg_command (safe : Bool) (input_files : List String) (filepath : String) :
    List String :=
  let input_args := input_files.flatMap (fun file => ["-i", file])
  let amerge_inputs :=
    (List.range input_files.length).map (fun idx => "[" ++ toString idx ++ ":a]")
  let amerge_filter :=
    String.join amerge_inputs ++ "amerge=inputs=" ++ toString input_files.length ++ "[out]"
  ["ffmpeg", if !safe then "-y" else "-n"] ++ input_args ++
    ["-filter_complex", amerge_filter, "-map", "[out]", "-ac",
      toString input_files.length, filepath]

/-- `combine_tracks` itself.  `outputExists` is the observed
`os.path.exists(filepath)`, `dirListing` the observed `os.listdir(dir)`. -/
def combine_tracks (filepath : String) (dir : String) (safe : Bool)
    (outputExists : Bool) (dirListing : List String) : CombineResult :=
  if safe && outputExists then .alreadyExists filepath
  else
    let input_files :=
      (dirListing.filter (fun file => pyEndsWith file ".m4a")).map
        (fun file => dir ++ "/" ++ file)
    if input_files.isEmpty then .noInput
    else .run (ffmpeg_command safe input_files filepath)

/-- The effects a `combine_tracks` result performs: only the successful
branch touches anything, by invoking the external tool once. -/
def combineEffects : CombineResult → List Effect
  | .run cmd => [.invokeFfmpeg cmd]
  | _ => []

/-! ### Token manager — `utils/zoom.py`, `ZoomClient`

```python
def __init__(...):
    self._access_token = None
    self._token_expiry = None

def _is_token_expired(self):
    return self._token_expiry and time.time() >= self._token_expiry

def _refresh_token(self):
    ...
    self._access_token = token_data["access_token"]
    self._token_expiry = time.time() + token_data["expires_in"]

@property
def access_token(self):
    if self._access_token is None or self._is_token_expired():
        self._refresh_token()
    return self._access_token
```

Only the mutable token state matters to the claims; the credential fields
are carried along unchanged.  Wall-clock time (`time.time()`) is modelled
as a natural number of seconds and is supplied per call, and the token
endpoint's successful response (`access_token`, `expires_in`) is supplied
as the values a refresh would install. -/

/-- The `ZoomClient` instance state: credentials plus the cached token. -/
structure ZoomClient where
  account_id : String
  client_id : String
  client_secret : String
  /-- `self._access_token` -/
  accessTokenState : Option String
  /-- `self._token_expiry` -/
  tokenExpiryState : Option Nat
  deriving DecidableEq, Repr

/-- `ZoomClient._is_token_expired`.  Python's `x and y` is falsy when
`self._token_expiry` is `None` or `0.0`, so an expiry of `0` reads as
"not expired" even though `time.time() >= 0`. -/
def is_token_expired (c : ZoomClient) (now : Nat) : Bool :=
  match c.tokenExpiryState with
  | none => false
  | some e => decide (e ≠ 0) && decide (now ≥ e)

/-- `ZoomClient._refresh_token`: installs the exchanged token and its
expiry `time.time() + expires_in`. -/
def refresh_token (c : ZoomClient) (now : Nat) (newToken : String)
    (expiresIn : Nat) : ZoomClient :=
  { c with accessTokenState := some newToken,
           tokenExpiryState := some (now + expiresIn) }

/-- The `access_token` property as a state transition.  Returns the token
handed back, the client state after the call, and the number of
credential-exchange requests the call performed (0 or 1).  `newToken` and
`expiresIn` are the values the token endpoint would return if asked. -/
def access_token (c : ZoomClient) (now : Nat) (newToken : String)
    (expiresIn : Nat) : String × ZoomClient × Nat :=
  if c.accessTokenState = none || is_token_expired c now then
    let c' := refresh_token c now newToken expiresIn
    (c'.accessTokenState.getD "", c', 1)
  else
    (c.accessTokenState.getD "", c, 0)

/-! ### Participant names and local filenames

`cloud.py` (main loop) and `utils/zoom.py`
(`download_participant_audio_files`) both derive a participant name from
the provider's `file_name` field:

```python
name = data['file_name'].split('-')[-1].strip()
```
-/

/-- `data['file_name'].split('-')[-1].strip()`.  `pySplitChar` never
returns `[]`, so the `[-1]` access is total. -/
def participantNameOf (file_name : String) : String :=
  pyStrip ((pySplitChar file_name '-').getLastD "")

/-- Python `==` between a `str` and a 2-tuple: always `False`.  This is
the comparison `channel_map.count(participant_name)` performs in
`cloud.py`, `channel_map` being a list of `(filename, name)` tuples. -/
def pyEqStrPair (_s : String) (_e : String × String) : Bool := false

/-- The body of `cloud.py`'s per-file naming:

```python
channel_count = channel_map.count(participant_name) + 1
file_label = f"{participant_name}_{channel_count}" if channel_count > 1 else participant_name
local_filename = f"{file_label}.m4a"
```

Returns `(local_filename, participant_name)`, the entry appended to
`channel_map`. -/
def cloudLocalEntry (channel_map : List (String × String)) (file_name : String) :
    String × String :=
  let participant_name := participantNameOf file_name
  let channel_count := channel_map.countP (fun e => pyEqStrPair participant_name e) + 1
  let file_label :=
    if channel_count > 1 then participant_name ++ "_" ++ toString channel_count
    else participant_name
  (file_label ++ ".m4a", participant_name)

/-- The channel map `cloud.py`'s download loop builds from the provider's
`file_name` fields, in provider-returned order. -/
def cloudChannelMap (file_names : List String) (channel_map : List (String × String)) :
    List (String × String) :=
  match file_names with
  | [] => channel_map
  | fn :: rest => cloudChannelMap rest (channel_map ++ [cloudLocalEntry channel_map fn])

/-! `utils/zoom.py`'s `download_participant_audio_files` keeps a real
occurrence dictionary instead:

```python
names = {}
for data in response['participant_audio_files']:
    name = data['file_name'].split('-')[-1].strip()
    if name in names:
        names[name] += 1
    else:
        names[name] = 1
    filename = name + (f"_{names[name]}" if names[name] > 1 else '')
```

The dictionary is modelled as an association list. -/

/-- One update of the `names` dictionary. -/
def bumpName (names : List (String × Nat)) (name : String) : List (String × Nat) :=
  if (names.lookup name).isSome then
    names.map (fun p => if p.1 = name then (p.1, p.2 + 1) else p)
  else
    names ++ [(name, 1)]

/-- The local filenames (without the `.m4a` extension) that
`download_participant_audio_files` writes, in provider-returned order. -/
def zoom_download_filenames (file_names : List String) (names : List (String × Nat)) :
    List String :=
  match file_names with
  | [] => []
  | fn :: rest =>
    let name := participantNameOf fn
    let names' := bumpName names name
    let occ := (names'.lookup name).getD 1
    let filename := name ++ (if occ > 1 then "_" ++ toString occ else "")
    filename :: zoom_download_filenames rest names'

/-! ### Channel labeling — `cloud.py`, step 5

```python
ch_idx = int(utt.channel)
if ch_idx < len(channel_map):
    participant_name = channel_map[ch_idx][1]
else:
    participant_name = f"UnknownChannel{ch_idx}"
```

Note the bounds test has no lower bound: a negative `ch_idx` passes it and
Python list indexing then counts from the end, raising `IndexError` only
below `-len`.  `pyIndex` models that indexing; `none` is the
`IndexError`. -/

/-- Python list indexing with an `int` subscript. -/
def pyIndex {α : Type} (l : List α) (i : Int) : Option α :=
  if 0 ≤ i then l[i.toNat]?
  else if (l.length : Int) + i < 0 then none
  else l[((l.length : Int) + i).toNat]?

/-- The participant label `cloud.py` attaches to an utterance with coerced
channel index `chIdx`; `none` models the run dying of an `IndexError`. -/
def labelParticipant (channel_map : List (String × String)) (chIdx : Int) :
    Option String :=
  if chIdx < (channel_map.length : Int) then
    (pyIndex channel_map chIdx).map Prod.snd
  else
    some ("UnknownChannel" ++ toString chIdx)

/-! ### Filesystem model

A filesystem is an association list from paths to byte contents.  Only
what `cloud.py` needs is modelled: existence checks, writes, removal, and
the listing of the `tmp` download directory. -/

/-- `os.path.exists`. -/
def fsExists (fs : List (String × List Nat)) (p : String) : Bool :=
  (fs.lookup p).isSome

/-- `open(p, 'wb').write(content)`: replaces any entry at `p`. -/
def fsWrite (fs : List (String × List Nat)) (p : String) (content : List Nat) :
    List (String × List Nat) :=
  (fs.filter (fun e => e.1 ≠ p)) ++ [(p, content)]

/-- `os.remove`. -/
def fsRemove (fs : List (String × List Nat)) (p : String) :
    List (String × List Nat) :=
  fs.filter (fun e => e.1 ≠ p)

/-- `os.listdir('tmp')`: the names under the `tmp/` prefix, in the (OS
chosen, here: entry) order of the filesystem. -/
def listdirTmp (fs : List (String × List Nat)) : List String :=
  ((fs.map Prod.fst).filter (fun p => pyStartsWith p "tmp/")).map
    (fun p => pyDrop p 4)

/-! ### The end-to-end run — `cloud.py`, `main` -/

/-- One entry of the provider's `participant_audio_files` list. -/
structure PAFile where
  file_name : String
  download_url : String
  deriving DecidableEq, Repr

/-- The outcome of a `requests.get(download_url, ...)`: an HTTP response
(of any status — the code never checks it) with its body bytes, or a
transport-level exception. -/
inductive FetchOutcome where
  | response (status : Nat) (content : List Nat)
  | exn
  deriving DecidableEq, Repr

/-- One utterance of the transcription provider's result. -/
structure Utterance where
  channel : Int
  start : Nat
  stop : Nat
  text : String
  confidence : Int
  deriving DecidableEq, Repr

/-- The transcription provider's result: `audio_channels` plus the
utterance list. -/
structure Transcript where
  audio_channels : Nat
  utterances : List Utterance
  deriving DecidableEq, Repr

/-- A labeled utterance as assembled in step 5 of `main`. -/
structure LabeledUtterance where
  participant : String
  start_ms : Nat
  end_ms : Nat
  text : String
  confidence : Int
  deriving DecidableEq, Repr

/-- How a run of `main` ends. -/
inductive RunResult where
  /-- clean early exit: no recorded meetings for the date -/
  | noMeetings
  /-- a download raised (transport exception propagates, no handler) -/
  | downloadError
  /-- `combine_tracks` raised one of its precondition errors -/
  | combineFailed
  /-- the external merge tool exited non-zero (`RuntimeError`) -/
  | ffmpegFailed
  /-- the transcription provider returned a failure -/
  | transcriptionFailed
  /-- labeling raised (`IndexError` from a negative out-of-range index) -/
  | labelFailed
  /-- full success: meeting uuid, channel count, labeled utterances -/
  | completed (meeting_uuid : String) (num_channels : Nat)
      (utts : List LabeledUtterance)
  deriving DecidableEq, Repr

/-- Everything external a run observes: the provider's responses, the
outcome of each download, the initial filesystem, the merge tool's exit
status, and the transcription result (`none` = provider failure). -/
structure Env where
  /-- `meets.get("meetings")`: `none` when the key is absent -/
  meetings : Option (List String)
  /-- `response['participant_audio_files']`, each file paired with the
  outcome its download will have -/
  pafs : List (PAFile × FetchOutcome)
  initialFs : List (String × List Nat)
  ffmpegExit : Bool
  ffmpegOutput : List Nat
  transcriptResult : Option Transcript
  deriving Repr

/-- The download loop of `main` (step 2).  For each provider file it
derives the local name exactly as `cloudLocalEntry` does, fetches the URL
and — whatever the HTTP status — writes the body to `tmp/`.  A transport
exception aborts the loop (`none`); otherwise the built channel map is
returned.  The result is `(effects, final filesystem, outcome)`. -/
def downloadLoop (files : List (PAFile × FetchOutcome))
    (channel_map : List (String × String)) (fs : List (String × List Nat)) :
    List Effect × List (String × List Nat) × Option (List (String × String)) :=
  match files with
  | [] => ([], fs, some channel_map)
  | (f, out) :: rest =>
    let entry := cloudLocalEntry channel_map f.file_name
    let local_path := "tmp/" ++ entry.1
    match out with
    | .exn => ([.fetch f.download_url], fs, none)
    | .response _ content =>
      let fs' := fsWrite fs local_path content
      let r := downloadLoop rest (channel_map ++ [entry]) fs'
      (.fetch f.download_url :: .writeFile local_path content :: r.1, r.2)

/-- Step 5 of `main`: label every utterance; `none` models the run dying
of an `IndexError` inside the loop. -/
def labelAll (channel_map : List (String × String)) :
    List Utterance → Option (List LabeledUtterance)
  | [] => some []
  | u :: rest =>
    match labelParticipant channel_map u.channel with
    | none => none
    | some p =>
      (labelAll channel_map rest).map
        (fun l => ⟨p, u.start, u.stop, u.text, u.confidence⟩ :: l)

/-- The end-to-end run of `cloud.py`'s `main`, as effects plus result.

Mirrors the source order: the empty-meetings check comes before any
filesystem action; then `os.makedirs('tmp')`, the download loop, the
unconditional `os.remove` of a pre-existing `combined_audio.m4a`,
`combine_tracks(..., safe=False)`, the tool invocation, transcription,
labeling, and the final JSON write. -/
def cloudMain (env : Env) : List Effect × RunResult :=
  match env.meetings with
  | none => ([], .noMeetings)
  | some [] => ([], .noMeetings)
  | some (meeting_uuid :: _) =>
    let dl := downloadLoop env.pafs [] env.initialFs
    match dl.2.2 with
    | none => (Effect.makeDirs "tmp" :: dl.1, .downloadError)
    | some channel_map =>
      let fs1 := dl.2.1
      let removeStep : List Effect × List (String × List Nat) :=
        if fsExists fs1 "combined_audio.m4a" then
          ([Effect.removeFile "combined_audio.m4a"],
           fsRemove fs1 "combined_audio.m4a")
        else ([], fs1)
      let fs2 := removeStep.2
      let pre := Effect.makeDirs "tmp" :: dl.1 ++ removeStep.1
      match combine_tracks "combined_audio.m4a" "tmp" false
          (fsExists fs2 "combined_audio.m4a") (listdirTmp fs2) with
      | .alreadyExists _ => (pre, .combineFailed)
      | .noInput => (pre, .combineFailed)
      | .run cmd =>
        if env.ffmpegExit then
          match env.transcriptResult with
          | none =>
            (pre ++ [.invokeFfmpeg cmd, .transcribe "combined_audio.m4a"],
             .transcriptionFailed)
          | some t =>
            match labelAll channel_map t.utterances with
            | none =>
              (pre ++ [.invokeFfmpeg cmd, .transcribe "combined_audio.m4a"],
               .labelFailed)
            | some utts =>
              (pre ++ [.invokeFfmpeg cmd, .transcribe "combined_audio.m4a",
                       .writeJson "transcript.json"],
               .completed meeting_uuid t.audio_channels utts)
        else (pre ++ [.invokeFfmpeg cmd], .ffmpegFailed)

/-- The download URLs a trace fetched, in order. -/
def fetchUrls (tr : List Effect) : List String :=
  tr.filterMap (fun e => match e with | .fetch u => some u | _ => none)

/-- Whether an effect is an invocation of the external merge tool. -/
def isInvokeFfmpeg : Effect → Bool
  | .invokeFfmpeg _ => true
  | _ => false

/-! ### Helper lemmas -/

/-- A path formed by joining onto a directory contains `/`, so it is never
the bare flag string `-i`. -/
theorem join_slash_ne_dash_i (dir f : String) : dir ++ "/" ++ f ≠ "-i" := by
  intro h
  have hd := congrArg String.data h
  simp only [String.data_append] at hd
  have hmem : '/' ∈ dir.data ++ ['/'] ++ f.data := by simp
  rw [hd] at hmem
  simp at hmem

/-- A download path under `tmp/` is never the combined output path. -/
theorem tmp_ne_combined (s : String) :
    "tmp/" ++ s ≠ "combined_audio.m4a" := by
  intro h
  have hd := congrArg String.data h
  simp only [String.data_append] at hd
  simp [String.data] at hd

/-- Length of the `-i file` argument pairs. -/
theorem flatMap_pair_length (l : List String) :
    (l.flatMap (fun f => ["-i", f])).length = 2 * l.length := by
  induction l with
  | nil => rfl
  | cons a t ih => simp only [List.flatMap_cons, List.length_append, ih,
      List.length_cons, List.length_nil]; omega

/-- The even positions of the `-i file` pairs hold the `-i` flag. -/
theorem flatMap_pair_getElem_even (l : List String) (i : Nat) (h : i < l.length) :
    (l.flatMap (fun f => ["-i", f]))[2 * i]? = some "-i" := by
  induction l generalizing i with
  | nil => simp at h
  | cons a t ih =>
    cases i with
    | zero => simp [List.flatMap_cons]
    | succ j =>
      have h2 : 2 * (j + 1) = 2 * j + 1 + 1 := by ring
      rw [List.flatMap_cons, h2]
      simpa using ih j (by simpa using h)

/-- The odd positions of the `-i file` pairs hold the files, in order. -/
theorem flatMap_pair_getElem_odd (l : List String) (i : Nat) (h : i < l.length) :
    (l.flatMap (fun f => ["-i", f]))[2 * i + 1]? = l[i]? := by
  induction l generalizing i with
  | nil => simp at h
  | cons a t ih =>
    cases i with
    | zero => simp [List.flatMap_cons]
    | succ j =>
      have h2 : 2 * (j + 1) + 1 = 2 * j + 1 + 1 + 1 := by ring
      rw [List.flatMap_cons, h2]
      simpa using ih j (by simpa using h)

/-- When no file is literally named `-i`, the pairs contain exactly one
`-i` flag per file. -/
theorem flatMap_pair_count (l : List String) (h : ∀ f ∈ l, f ≠ "-i") :
    (l.flatMap (fun f => ["-i", f])).count "-i" = l.length := by
  induction l with
  | nil => rfl
  | cons a t ih =>
    have ha : a ≠ "-i" := h a (by simp)
    rw [List.flatMap_cons, List.count_append,
      ih (fun f hf => h f (by simp [hf]))]
    simp [List.count_cons, ha]
    omega

/-- Every effect of the download loop is a fetch or a write under `tmp/`. -/
theorem downloadLoop_effects_shape (files : List (PAFile × FetchOutcome))
    (channel_map : List (String × String)) (fs : List (String × List Nat)) :
    ∀ e ∈ (downloadLoop files channel_map fs).1,
      (∃ u, e = Effect.fetch u)
      ∨ (∃ s c, e = Effect.writeFile ("tmp/" ++ s) c) := by
  induction files generalizing channel_map fs with
  | nil => simp [downloadLoop]
  | cons a rest ih =>
    obtain ⟨f, out⟩ := a
    cases out with
    | exn =>
      intro e he
      simp [downloadLoop] at he
      exact Or.inl ⟨f.download_url, he⟩
    | response st content =>
      intro e he
      simp only [downloadLoop, List.mem_cons] at he
      rcases he with h | h | h
      · exact Or.inl ⟨f.download_url, h⟩
      · exact Or.inr ⟨(cloudLocalEntry channel_map f.file_name).1, content, h⟩
      · exact ih _ _ e h

/-- The download loop never invokes the merge tool. -/
theorem downloadLoop_countP_invoke (files : List (PAFile × FetchOutcome))
    (channel_map : List (String × String)) (fs : List (String × List Nat)) :
    (downloadLoop files channel_map fs).1.countP isInvokeFfmpeg = 0 := by
  rw [List.countP_eq_zero]
  intro e he
  rcases downloadLoop_effects_shape files channel_map fs e he with ⟨u, rfl⟩ | ⟨s, c, rfl⟩
  · simp [isInvokeFfmpeg]
  · simp [isInvokeFfmpeg]

/-- Filtering out entries at a different key leaves a lookup unchanged. -/
theorem filter_ne_lookup (fs : List (String × List Nat)) (q p : String)
    (h : p ≠ q) :
    (fs.filter (fun e => e.1 ≠ q)).lookup p = fs.lookup p := by
  induction fs with
  | nil => rfl
  | cons a t ih =>
    obtain ⟨k, v⟩ := a
    simp only [ne_eq, decide_not] at ih
    by_cases hk : k = q
    · subst hk
      have hpk : (p == k) = false := by simp [h]
      simp [List.filter_cons, List.lookup_cons, hpk, ih]
    · simp only [List.filter_cons, List.lookup_cons]
      rw [if_pos (by simpa using hk)]
      rw [List.lookup_cons]
      cases hpk : p == k <;> simp [hpk, ih]

/-- Writing one path leaves lookups of any other path unchanged. -/
theorem fsWrite_lookup_ne (fs : List (String × List Nat)) (q p : String)
    (content : List Nat) (h : p ≠ q) :
    (fsWrite fs q content).lookup p = fs.lookup p := by
  have hpq : (p == q) = false := by simp [h]
  rw [fsWrite, List.lookup_append, filter_ne_lookup fs q p h]
  simp [List.lookup_cons, hpq]

/-- The download loop only writes under `tmp/`, so the presence and
contents of any path outside `tmp/` are unchanged by it. -/
theorem downloadLoop_lookup_preserved (files : List (PAFile × FetchOutcome))
    (channel_map : List (String × String)) (fs : List (String × List Nat))
    (p : String) (hp : ∀ s, p ≠ "tmp/" ++ s) :
    (downloadLoop files channel_map fs).2.1.lookup p = fs.lookup p := by
  induction files generalizing channel_map fs with
  | nil => rfl
  | cons a rest ih =>
    obtain ⟨f, out⟩ := a
    cases out with
    | exn => rfl
    | response st content =>
      simp only [downloadLoop]
      rw [ih]
      exact fsWrite_lookup_ne _ _ _ _
        (hp (cloudLocalEntry channel_map f.file_name).1)

/-- When the preconditions pass, `combine_tracks` hands the generated
command to the external tool. -/
theorem combine_tracks_run (filepath dir : String) (safe outputExists : Bool)
    (dirListing : List String) (hg : (safe && outputExists) = false)
    (hne : dirListing.filter (fun f => pyEndsWith f ".m4a") ≠ []) :
    combine_tracks filepath dir safe outputExists dirListing
      = CombineResult.run (ffmpeg_command safe
          ((dirListing.filter (fun f => pyEndsWith f ".m4a")).map
            (fun f => dir ++ "/" ++ f)) filepath) := by
  have hmapne : (dirListing.filter (fun f => pyEndsWith f ".m4a")).map
      (fun f => dir ++ "/" ++ f) ≠ [] := by
    intro hmap
    exact hne (List.map_eq_nil_iff.mp hmap)
  unfold combine_tracks
  rw [hg]
  simp only [Bool.false_eq_true, if_false]
  rw [if_neg (by simpa [List.isEmpty_iff] using hmapne)]

/-- Structure of the generated command: one `-i file` pair per input at
positions `2+2i`/`3+2i` and no other `-i` in the input region, then the
merge filter declaring `inputs=N`, the `-map` of the merged stream, `-ac N`
and the output path. -/
theorem ffmpeg_command_structure (safe : Bool) (inputs : List String)
    (filepath : String) (hnei : ∀ f ∈ inputs, f ≠ "-i") :
    (ffmpeg_command safe inputs filepath).length = 2 * inputs.length + 9
    ∧ (∀ i, i < inputs.length →
        (ffmpeg_command safe inputs filepath)[2 + 2 * i]? = some "-i"
        ∧ (ffmpeg_command safe inputs filepath)[3 + 2 * i]? = inputs[i]?)
    ∧ ((ffmpeg_command safe inputs filepath).take
        (2 + 2 * inputs.length)).count "-i" = inputs.length
    ∧ (ffmpeg_command safe inputs filepath)[2 * inputs.length + 3]?
        = some (String.join ((List.range inputs.length).map
            (fun idx => "[" ++ toString idx ++ ":a]"))
          ++ "amerge=inputs=" ++ toString inputs.length ++ "[out]")
    ∧ (ffmpeg_command safe inputs filepath)[2 * inputs.length + 6]? = some "-ac"
    ∧ (ffmpeg_command safe inputs filepath)[2 * inputs.length + 7]?
        = some (toString inputs.length)
    ∧ (ffmpeg_command safe inputs filepath)[2 * inputs.length + 8]?
        = some filepath := by
  have hcmd : ffmpeg_command safe inputs filepath
      = "ffmpeg" :: (if !safe then "-y" else "-n") ::
        ((inputs.flatMap fun f => ["-i", f]) ++
          ["-filter_complex",
            String.join ((List.range inputs.length).map
              (fun idx => "[" ++ toString idx ++ ":a]"))
              ++ "amerge=inputs=" ++ toString inputs.length ++ "[out]",
            "-map", "[out]", "-ac", toString inputs.length, filepath]) := rfl
  have hmidlen : (inputs.flatMap fun f => ["-i", f]).length = 2 * inputs.length :=
    flatMap_pair_length inputs
  refine ⟨?_, ?_, ?_, ?_, ?_, ?_, ?_⟩
  · rw [hcmd]
    simp [List.length_append, hmidlen]
  · intro i hi
    constructor
    · rw [hcmd]
      have h2 : 2 + 2 * i = 2 * i + 1 + 1 := by ring
      rw [h2]
      simp only [List.getElem?_cons_succ]
      rw [List.getElem?_append_left (by rw [hmidlen]; omega)]
      exact flatMap_pair_getElem_even inputs i hi
    · rw [hcmd]
      have h3 : 3 + 2 * i = 2 * i + 1 + 1 + 1 := by ring
      rw [h3]
      simp only [List.getElem?_cons_succ]
      rw [List.getElem?_append_left (by rw [hmidlen]; omega)]
      exact flatMap_pair_getElem_odd inputs i hi
  · rw [hcmd]
    have h2 : 2 + 2 * inputs.length = 2 * inputs.length + 1 + 1 := by ring
    rw [h2]
    simp only [List.take_succ_cons]
    rw [List.take_left' hmidlen]
    rw [List.count_cons, List.count_cons, flatMap_pair_count inputs hnei]
    have hff : (("-i" : String) == "ffmpeg") = false := by decide
    have hy : (("-i" : String) == "-y") = false := by decide
    have hn : (("-i" : String) == "-n") = false := by decide
    cases safe <;> simp [hff, hy, hn]
  · rw [hcmd]
    have h4 : 2 * inputs.length + 3 = 2 * inputs.length + 1 + 1 + 1 := by ring
    rw [h4]
    simp only [List.getElem?_cons_succ]
    rw [List.getElem?_append_right (by rw [hmidlen]; omega), hmidlen]
    have : 2 * inputs.length + 1 - 2 * inputs.length = 1 := by omega
    rw [this]
    rfl
  · rw [hcmd]
    have h6 : 2 * inputs.length + 6 = 2 * inputs.length + 4 + 1 + 1 := by ring
    rw [h6]
    simp only [List.getElem?_cons_succ]
    rw [List.getElem?_append_right (by rw [hmidlen]; omega), hmidlen]
    have : 2 * inputs.length + 4 - 2 * inputs.length = 4 := by omega
    rw [this]
    rfl
  · rw [hcmd]
    have h7 : 2 * inputs.length + 7 = 2 * inputs.length + 5 + 1 + 1 := by ring
    rw [h7]
    simp only [List.getElem?_cons_succ]
    rw [List.getElem?_append_right (by rw [hmidlen]; omega), hmidlen]
    have : 2 * inputs.length + 5 - 2 * inputs.length = 5 := by omega
    rw [this]
    rfl
  · rw [hcmd]
    have h8 : 2 * inputs.length + 8 = 2 * inputs.length + 6 + 1 + 1 := by ring
    rw [h8]
    simp only [List.getElem?_cons_succ]
    rw [List.getElem?_append_right (by rw [hmidlen]; omega), hmidlen]
    have : 2 * inputs.length + 6 - 2 * inputs.length = 6 := by omega
    rw [this]
    rfl

/-- With `safe=False` the generated command's overwrite flag is `-y`. -/
theorem ffmpeg_command_overwrite_flag (inputs : List String) (filepath : String) :
    (ffmpeg_command false inputs filepath)[1]? = some "-y" := by
  simp [ffmpeg_command]

/-- The generated command's final argument is the output path. -/
theorem ffmpeg_command_output_last (safe : Bool) (inputs : List String)
    (filepath : String) :
    (ffmpeg_command safe inputs filepath).getLast? = some filepath := by
  unfold ffmpeg_command
  rw [List.getLast?_append, List.getLast?_append]
  rfl

/-- A `combine_tracks` call that hands off a command with `safe=False`
hands off exactly the generated command. -/
theorem combine_tracks_run_inv (filepath dir : String) (outputExists : Bool)
    (dirListing : List String) (cmd : List String)
    (h : combine_tracks filepath dir false outputExists dirListing
        = CombineResult.run cmd) :
    cmd = ffmpeg_command false ((dirListing.filter
        (fun f => pyEndsWith f ".m4a")).map (fun f => dir ++ "/" ++ f))
      filepath := by
  unfold combine_tracks at h
  simp only [Bool.false_and, Bool.false_eq_true, if_false] at h
  split at h
  · exact absurd h (by simp)
  · exact (CombineResult.run.injEq _ _).mp h.symm

/-- The shape of every run trace: either the clean no-meetings exit, or
`makeDirs` followed by the download trace, an optional removal of a
pre-existing combined output, and an optional tool invocation followed by
at most the transcription and the JSON write.  The removal is present
whenever the run survives the downloads and the combined path existed;
any invoked command carries the `-y` overwrite flag and writes the
combined path. -/
theorem cloudMain_structure (env : Env) :
    (cloudMain env = ([], RunResult.noMeetings)
      ∧ (env.meetings = none ∨ env.meetings = some []))
    ∨ ∃ removeTr tail,
      (cloudMain env).1
        = Effect.makeDirs "tmp" :: (downloadLoop env.pafs [] env.initialFs).1
            ++ removeTr ++ tail
      ∧ (removeTr = [] ∨ removeTr = [Effect.removeFile "combined_audio.m4a"])
      ∧ ((cloudMain env).2 ≠ RunResult.downloadError →
          fsExists (downloadLoop env.pafs [] env.initialFs).2.1
              "combined_audio.m4a" = true →
          removeTr = [Effect.removeFile "combined_audio.m4a"])
      ∧ (tail = []
         ∨ ∃ cmd post, tail = Effect.invokeFfmpeg cmd :: post
             ∧ cmd[1]? = some "-y"
             ∧ cmd.getLast? = some "combined_audio.m4a"
             ∧ (post = [] ∨ post = [Effect.transcribe "combined_audio.m4a"]
                ∨ post = [Effect.transcribe "combined_audio.m4a",
                          Effect.writeJson "transcript.json"])) := by
  obtain ⟨mts, pafs, fs0, fex, fout, tres⟩ := env
  cases mts with
  | none => exact Or.inl ⟨rfl, Or.inl rfl⟩
  | some l =>
  cases l with
  | nil => exact Or.inl ⟨rfl, Or.inr rfl⟩
  | cons u us =>
  right
  cases hdl : (downloadLoop pafs [] fs0).2.2 with
  | none =>
    have hcm : cloudMain ⟨some (u :: us), pafs, fs0, fex, fout, tres⟩
        = (Effect.makeDirs "tmp" :: (downloadLoop pafs [] fs0).1,
           RunResult.downloadError) := by
      simp [cloudMain, hdl]
    refine ⟨[], [], ?_, Or.inl rfl, ?_, Or.inl rfl⟩
    · rw [hcm]; simp
    · rw [hcm]; intro hres _; exact absurd rfl hres
  | some cm =>
  cases hex : fsExists (downloadLoop pafs [] fs0).2.1 "combined_audio.m4a" with
  | false =>
    cases hcomb : combine_tracks "combined_audio.m4a" "tmp" false false
        (listdirTmp (downloadLoop pafs [] fs0).2.1) with
    | alreadyExists fp =>
      have hcm : cloudMain ⟨some (u :: us), pafs, fs0, fex, fout, tres⟩
          = (Effect.makeDirs "tmp" :: (downloadLoop pafs [] fs0).1,
             RunResult.combineFailed) := by
        simp [cloudMain, hdl, hex, hcomb]
      refine ⟨[], [], ?_, Or.inl rfl, ?_, Or.inl rfl⟩
      · rw [hcm]; simp
      · intro _ hfs
        exact absurd hfs (by simp)
    | noInput =>
      have hcm : cloudMain ⟨some (u :: us), pafs, fs0, fex, fout, tres⟩
          = (Effect.makeDirs "tmp" :: (downloadLoop pafs [] fs0).1,
             RunResult.combineFailed) := by
        simp [cloudMain, hdl, hex, hcomb]
      refine ⟨[], [], ?_, Or.inl rfl, ?_, Or.inl rfl⟩
      · rw [hcm]; simp
      · intro _ hfs
        exact absurd hfs (by simp)
    | run cmd =>
      have hcmdEq := combine_tracks_run_inv _ _ _ _ _ hcomb
      have hflag : cmd[1]? = some "-y" := by
        rw [hcmdEq]; exact ffmpeg_command_overwrite_flag _ _
      have hlast : cmd.getLast? = some "combined_audio.m4a" := by
        rw [hcmdEq]; exact ffmpeg_command_output_last _ _ _
      cases fex with
      | false =>
        have hcm : cloudMain ⟨some (u :: us), pafs, fs0, false, fout, tres⟩
            = (Effect.makeDirs "tmp" :: ((downloadLoop pafs [] fs0).1
                ++ [Effect.invokeFfmpeg cmd]), RunResult.ffmpegFailed) := by
          simp [cloudMain, hdl, hex, hcomb]
        refine ⟨[], [Effect.invokeFfmpeg cmd], ?_, Or.inl rfl,
          (fun _ hfs => absurd hfs (by simp)),
          Or.inr ⟨cmd, [], rfl, hflag, hlast, Or.inl rfl⟩⟩
        rw [hcm]; simp
      | true =>
        cases tres with
        | none =>
          have hcm : cloudMain ⟨some (u :: us), pafs, fs0, true, fout, none⟩
              = (Effect.makeDirs "tmp" :: ((downloadLoop pafs [] fs0).1
                  ++ [Effect.invokeFfmpeg cmd,
                      Effect.transcribe "combined_audio.m4a"]),
                 RunResult.transcriptionFailed) := by
            simp [cloudMain, hdl, hex, hcomb]
          refine ⟨[], [Effect.invokeFfmpeg cmd,
              Effect.transcribe "combined_audio.m4a"], ?_, Or.inl rfl,
            (fun _ hfs => absurd hfs (by simp)),
            Or.inr ⟨cmd, [Effect.transcribe "combined_audio.m4a"], rfl,
              hflag, hlast, Or.inr (Or.inl rfl)⟩⟩
          rw [hcm]; simp
        | some t =>
          cases hlab : labelAll cm t.utterances with
          | none =>
            have hcm : cloudMain ⟨some (u :: us), pafs, fs0, true, fout, some t⟩
                = (Effect.makeDirs "tmp" :: ((downloadLoop pafs [] fs0).1
                    ++ [Effect.invokeFfmpeg cmd,
                        Effect.transcribe "combined_audio.m4a"]),
                   RunResult.labelFailed) := by
              simp [cloudMain, hdl, hex, hcomb, hlab]
            refine ⟨[], [Effect.invokeFfmpeg cmd,
                Effect.transcribe "combined_audio.m4a"], ?_, Or.inl rfl,
              (fun _ hfs => absurd hfs (by simp)),
              Or.inr ⟨cmd, [Effect.transcribe "combined_audio.m4a"], rfl,
                hflag, hlast, Or.inr (Or.inl rfl)⟩⟩
            rw [hcm]; simp
          | some utts =>
            have hcm : cloudMain ⟨some (u :: us), pafs, fs0, true, fout, some t⟩
                = (Effect.makeDirs "tmp" :: ((downloadLoop pafs [] fs0).1
                    ++ [Effect.invokeFfmpeg cmd,
                        Effect.transcribe "combined_audio.m4a",
                        Effect.writeJson "transcript.json"]),
                   RunResult.completed u t.audio_channels utts) := by
              simp [cloudMain, hdl, hex, hcomb, hlab]
            refine ⟨[], [Effect.invokeFfmpeg cmd,
                Effect.transcribe "combined_audio.m4a",
                Effect.writeJson "transcript.json"], ?_, Or.inl rfl,
              (fun _ hfs => absurd hfs (by simp)),
              Or.inr ⟨cmd, [Effect.transcribe "combined_audio.m4a",
                  Effect.writeJson "transcript.json"], rfl,
                hflag, hlast, Or.inr (Or.inr rfl)⟩⟩
            rw [hcm]; simp
  | true =>
    cases hcomb : combine_tracks "combined_audio.m4a" "tmp" false
        (fsExists (fsRemove (downloadLoop pafs [] fs0).2.1
          "combined_audio.m4a") "combined_audio.m4a")
        (listdirTmp (fsRemove (downloadLoop pafs [] fs0).2.1
          "combined_audio.m4a")) with
    | alreadyExists fp =>
      have hcm : cloudMain ⟨some (u :: us), pafs, fs0, fex, fout, tres⟩
          = (Effect.makeDirs "tmp" :: ((downloadLoop pafs [] fs0).1
              ++ [Effect.removeFile "combined_audio.m4a"]),
             RunResult.combineFailed) := by
        simp [cloudMain, hdl, hex, hcomb]
      refine ⟨[Effect.removeFile "combined_audio.m4a"], [], ?_,
        Or.inr rfl, fun _ _ => rfl, Or.inl rfl⟩
      rw [hcm]; simp
    | noInput =>
      have hcm : cloudMain ⟨some (u :: us), pafs, fs0, fex, fout, tres⟩
          = (Effect.makeDirs "tmp" :: ((downloadLoop pafs [] fs0).1
              ++ [Effect.removeFile "combined_audio.m4a"]),
             RunResult.combineFailed) := by
        simp [cloudMain, hdl, hex, hcomb]
      refine ⟨[Effect.removeFile "combined_audio.m4a"], [], ?_,
        Or.inr rfl, fun _ _ => rfl, Or.inl rfl⟩
      rw [hcm]; simp
    | run cmd =>
      have hcmdEq := combine_tracks_run_inv _ _ _ _ _ hcomb
      have hflag : cmd[1]? = some "-y" := by
        rw [hcmdEq]; exact ffmpeg_command_overwrite_flag _ _
      have hlast : cmd.getLast? = some "combined_audio.m4a" := by
        rw [hcmdEq]; exact ffmpeg_command_output_last _ _ _
      cases fex with
      | false =>
        have hcm : cloudMain ⟨some (u :: us), pafs, fs0, false, fout, tres⟩
            = (Effect.makeDirs "tmp" :: ((downloadLoop pafs [] fs0).1
                ++ [Effect.removeFile "combined_audio.m4a",
                    Effect.invokeFfmpeg cmd]), RunResult.ffmpegFailed) := by
          simp [cloudMain, hdl, hex, hcomb]
        refine ⟨[Effect.removeFile "combined_audio.m4a"],
          [Effect.invokeFfmpeg cmd], ?_, Or.inr rfl, fun _ _ => rfl,
          Or.inr ⟨cmd, [], rfl, hflag, hlast, Or.inl rfl⟩⟩
        rw [hcm]; simp
      | true =>
        cases tres with
        | none =>
          have hcm : cloudMain ⟨some (u :: us), pafs, fs0, true, fout, none⟩
              = (Effect.makeDirs "tmp" :: ((downloadLoop pafs [] fs0).1
                  ++ [Effect.removeFile "combined_audio.m4a",
                      Effect.invokeFfmpeg cmd,
                      Effect.transcribe "combined_audio.m4a"]),
                 RunResult.transcriptionFailed) := by
            simp [cloudMain, hdl, hex, hcomb]
          refine ⟨[Effect.removeFile "combined_audio.m4a"],
            [Effect.invokeFfmpeg cmd,
             Effect.transcribe "combined_audio.m4a"], ?_, Or.inr rfl,
            fun _ _ => rfl,
            Or.inr ⟨cmd, [Effect.transcribe "combined_audio.m4a"], rfl,
              hflag, hlast, Or.inr (Or.inl rfl)⟩⟩
          rw [hcm]; simp
        | some t =>
          cases hlab : labelAll cm t.utterances with
          | none =>
            have hcm : cloudMain ⟨some (u :: us), pafs, fs0, true, fout, some t⟩
                = (Effect.makeDirs "tmp" :: ((downloadLoop pafs [] fs0).1
                    ++ [Effect.removeFile "combined_audio.m4a",
                        Effect.invokeFfmpeg cmd,
                        Effect.transcribe "combined_audio.m4a"]),
                   RunResult.labelFailed) := by
              simp [cloudMain, hdl, hex, hcomb, hlab]
            refine ⟨[Effect.removeFile "combined_audio.m4a"],
              [Effect.invokeFfmpeg cmd,
               Effect.transcribe "combined_audio.m4a"], ?_, Or.inr rfl,
              fun _ _ => rfl,
              Or.inr ⟨cmd, [Effect.transcribe "combined_audio.m4a"], rfl,
                hflag, hlast, Or.inr (Or.inl rfl)⟩⟩
            rw [hcm]; simp
          | some utts =>
            have hcm : cloudMain ⟨some (u :: us), pafs, fs0, true, fout, some t⟩
                = (Effect.makeDirs "tmp" :: ((downloadLoop pafs [] fs0).1
                    ++ [Effect.removeFile "combined_audio.m4a",
                        Effect.invokeFfmpeg cmd,
                        Effect.transcribe "combined_audio.m4a",
                        Effect.writeJson "transcript.json"]),
                   RunResult.completed u t.audio_channels utts) := by
              simp [cloudMain, hdl, hex, hcomb, hlab]
            refine ⟨[Effect.removeFile "combined_audio.m4a"],
              [Effect.invokeFfmpeg cmd,
               Effect.transcribe "combined_audio.m4a",
               Effect.writeJson "transcript.json"], ?_, Or.inr rfl,
              fun _ _ => rfl,
              Or.inr ⟨cmd, [Effect.transcribe "combined_audio.m4a",
                  Effect.writeJson "transcript.json"], rfl,
                hflag, hlast, Or.inr (Or.inr rfl)⟩⟩
            rw [hcm]; simp

/-! ### Claim theorems -/

/-- Claim C1: for every non-empty eligible input list of size N (and
passing overwrite precondition), `combine_tracks` builds a single
external-tool invocation holding exactly N mapped input streams — the
`-i` flag at position `2+2i` followed by input file `i`, and no other
`-i` in the input region — a merge filter declaring `inputs=N`, an output
channel count argument `-ac N`, and the output path, so that input `i`
(in the order the inputs are enumerated) becomes channel `i` of the
N-channel output. -/
theorem combine_builds_merge_invocation (filepath dir : String)
    (safe outputExists : Bool) (dirListing : List String)
    (hguard : safe = false ∨ outputExists = false)
    (hne : dirListing.filter (fun f => pyEndsWith f ".m4a") ≠ []) :
    ∃ cmd,
      combine_tracks filepath dir safe outputExists dirListing
        = CombineResult.run cmd
      ∧ cmd.length = 2 * ((dirListing.filter (fun f => pyEndsWith f ".m4a")).map
          (fun f => dir ++ "/" ++ f)).length + 9
      ∧ (∀ i, i < ((dirListing.filter (fun f => pyEndsWith f ".m4a")).map
          (fun f => dir ++ "/" ++ f)).length →
          cmd[2 + 2 * i]? = some "-i"
          ∧ cmd[3 + 2 * i]? = ((dirListing.filter (fun f => pyEndsWith f ".m4a")).map
              (fun f => dir ++ "/" ++ f))[i]?)
      ∧ (cmd.take (2 + 2 * ((dirListing.filter (fun f => pyEndsWith f ".m4a")).map
          (fun f => dir ++ "/" ++ f)).length)).count "-i"
          = ((dirListing.filter (fun f => pyEndsWith f ".m4a")).map
              (fun f => dir ++ "/" ++ f)).length
      ∧ cmd[2 * ((dirListing.filter (fun f => pyEndsWith f ".m4a")).map
          (fun f => dir ++ "/" ++ f)).length + 3]?
          = some (String.join ((List.range ((dirListing.filter
                (fun f => pyEndsWith f ".m4a")).map
                (fun f => dir ++ "/" ++ f)).length).map
              (fun idx => "[" ++ toString idx ++ ":a]"))
            ++ "amerge=inputs="
            ++ toString ((dirListing.filter (fun f => pyEndsWith f ".m4a")).map
                (fun f => dir ++ "/" ++ f)).length ++ "[out]")
      ∧ cmd[2 * ((dirListing.filter (fun f => pyEndsWith f ".m4a")).map
          (fun f => dir ++ "/" ++ f)).length + 6]? = some "-ac"
      ∧ cmd[2 * ((dirListing.filter (fun f => pyEndsWith f ".m4a")).map
          (fun f => dir ++ "/" ++ f)).length + 7]?
          = some (toString ((dirListing.filter (fun f => pyEndsWith f ".m4a")).map
              (fun f => dir ++ "/" ++ f)).length)
      ∧ cmd[2 * ((dirListing.filter (fun f => pyEndsWith f ".m4a")).map
          (fun f => dir ++ "/" ++ f)).length + 8]? = some filepath := by
  have hg : (safe && outputExists) = false := by
    rcases hguard with h | h <;> simp [h]
  have hnei : ∀ f ∈ (dirListing.filter (fun f => pyEndsWith f ".m4a")).map
      (fun f => dir ++ "/" ++ f), f ≠ "-i" := by
    intro f hf
    obtain ⟨x, _, rfl⟩ := List.mem_map.mp hf
    exact join_slash_ne_dash_i dir x
  refine ⟨ffmpeg_command safe ((dirListing.filter
      (fun f => pyEndsWith f ".m4a")).map (fun f => dir ++ "/" ++ f)) filepath,
    combine_tracks_run filepath dir safe outputExists dirListing hg hne,
    ffmpeg_command_structure safe _ filepath hnei⟩

/-- Witness for C1 on a two-file listing: the generated command has
13 = 2·2+9 arguments, maps both inputs in order and sets `-ac 2`. -/
theorem combine_builds_merge_invocation_witness :
    ∃ cmd, combine_tracks "out.m4a" "tmp" false false ["a.m4a", "b.m4a"]
        = CombineResult.run cmd
      ∧ cmd.length = 13
      ∧ cmd[2]? = some "-i" ∧ cmd[3]? = some "tmp/a.m4a"
      ∧ cmd[4]? = some "-i" ∧ cmd[5]? = some "tmp/b.m4a"
      ∧ cmd[10]? = some "-ac" ∧ cmd[11]? = some "2" := by
  obtain ⟨cmd, hrun, hlen, hpos, _hcount, _hfilt, hac, hacv, _hout⟩ :=
    combine_builds_merge_invocation "out.m4a" "tmp" false false
      ["a.m4a", "b.m4a"] (Or.inl rfl) (by decide)
  have h0 := hpos 0 (by decide)
  have h1 := hpos 1 (by decide)
  refine ⟨cmd, hrun, by simpa using hlen, by simpa using h0.1,
    ?_, by simpa using h1.1, ?_, by simpa using hac, by simpa using hacv⟩
  · have := h0.2
    simpa using this
  · have := h1.2
    simpa using this

/-- Claim C2: for every transcript utterance with coerced channel index
`i`, if `0 ≤ i < |channel_map|` the attached participant is
`channel_map[i]`'s name, and if `i ≥ |channel_map|` it is the placeholder
`UnknownChannel<i>` embedding that exact index, without failing the run
(the labeler returns a value, not the `IndexError` case). -/
theorem label_in_range_and_placeholder (channel_map : List (String × String))
    (i : Int) :
    (∀ hle : (0 : Int) ≤ i, ∀ hlt : i.toNat < channel_map.length,
        labelParticipant channel_map i
          = some (channel_map.get ⟨i.toNat, hlt⟩).2)
    ∧ ((channel_map.length : Int) ≤ i →
        labelParticipant channel_map i
          = some ("UnknownChannel" ++ toString i)) := by
  constructor
  · intro hle hlt
    have hil : i < (channel_map.length : Int) := by omega
    unfold labelParticipant pyIndex
    rw [if_pos hil, if_pos hle, List.getElem?_eq_getElem hlt]
    rfl
  · intro hge
    unfold labelParticipant
    rw [if_neg (by omega)]

/-- Witness for C2 at a concrete two-entry channel map. -/
theorem label_in_range_and_placeholder_witness :
    labelParticipant [("A.m4a", "Alice"), ("B.m4a", "Bob")] 1 = some "Bob"
    ∧ labelParticipant [("A.m4a", "Alice"), ("B.m4a", "Bob")] 5
        = some ("UnknownChannel" ++ toString (5 : Int)) := by
  constructor
  · exact (label_in_range_and_placeholder [("A.m4a", "Alice"), ("B.m4a", "Bob")] 1).1
      (by decide) (by decide)
  · exact (label_in_range_and_placeholder [("A.m4a", "Alice"), ("B.m4a", "Bob")] 5).2
      (by decide)

/-- Claim C10: a negative coerced channel index `i` with
`-|channel_map| ≤ i < 0` passes the upper-bound-only test and receives the
participant name of `channel_map[|channel_map| + i]` by Python negative
indexing, not a placeholder. -/
theorem label_negative_wraparound (channel_map : List (String × String))
    (i : Int) (hne : channel_map ≠ []) (hneg : i < 0)
    (hge : -(channel_map.length : Int) ≤ i) :
    ∃ p, channel_map[((channel_map.length : Int) + i).toNat]? = some p
      ∧ labelParticipant channel_map i = some p.2 := by
  have hlt : ((channel_map.length : Int) + i).toNat < channel_map.length := by
    omega
  refine ⟨channel_map.get ⟨((channel_map.length : Int) + i).toNat, hlt⟩, ?_, ?_⟩
  · rw [List.getElem?_eq_getElem hlt]
    simp [List.get_eq_getElem]
  · unfold labelParticipant pyIndex
    rw [if_pos (by omega : i < (channel_map.length : Int))]
    rw [if_neg (by omega : ¬ (0 : Int) ≤ i)]
    rw [if_neg (by omega : ¬ (channel_map.length : Int) + i < 0)]
    rw [List.getElem?_eq_getElem hlt]
    rfl

/-- Witness for C10: index `-1` on a two-entry map resolves to the second
entry's name. -/
theorem label_negative_wraparound_witness :
    ∃ p, ([("A.m4a", "Alice"), ("B.m4a", "Bob")] :
        List (String × String))[(((2 : Nat) : Int) + (-1)).toNat]? = some p
      ∧ labelParticipant [("A.m4a", "Alice"), ("B.m4a", "Bob")] (-1) = some p.2 :=
  label_negative_wraparound [("A.m4a", "Alice"), ("B.m4a", "Bob")] (-1)
    (by decide) (by decide) (by decide)

/-- Claim C5: calling the combiner in safe mode (`overwrite=false`, i.e.
`safe=True`) on an already existing output path fails with the
already-exists error, independently of the directory contents (no input
enumeration), performs no effect (no tool invocation, so the pre-existing
output bytes are untouched). -/
theorem combine_safe_existing_output (filepath dir : String)
    (dirListing : List String) :
    combine_tracks filepath dir true true dirListing
        = CombineResult.alreadyExists filepath
    ∧ combineEffects (combine_tracks filepath dir true true dirListing) = []
    ∧ ∀ otherListing, combine_tracks filepath dir true true dirListing
        = combine_tracks filepath dir true true otherListing :=
  ⟨rfl, rfl, fun _ => rfl⟩

/-- Counterexample to claim C6 as stated: with `safe=True` and an already
existing output path, a call on a directory with no eligible input files
fails with the already-exists error, not the no-input error. -/
theorem combine_empty_dir_counterexample :
    combine_tracks "combined_audio.m4a" "tmp" true true []
        ≠ CombineResult.noInput
    ∧ combine_tracks "combined_audio.m4a" "tmp" true true []
        = CombineResult.alreadyExists "combined_audio.m4a" :=
  ⟨by decide, rfl⟩

/-- Claim C6 (amended): provided the already-exists precondition does not
fire first, a combiner call whose directory listing has no eligible
(`.m4a`) file fails with the no-input error and performs no effect. -/
theorem combine_empty_dir_no_input (filepath dir : String)
    (safe outputExists : Bool) (dirListing : List String)
    (hguard : safe = false ∨ outputExists = false)
    (hempty : dirListing.filter (fun f => pyEndsWith f ".m4a") = []) :
    combine_tracks filepath dir safe outputExists dirListing
        = CombineResult.noInput
    ∧ combineEffects (combine_tracks filepath dir safe outputExists dirListing)
        = [] := by
  have hg : (safe && outputExists) = false := by
    rcases hguard with h | h <;> simp [h]
  constructor
  · unfold combine_tracks
    rw [hg]
    simp [hempty]
  · unfold combine_tracks
    rw [hg]
    simp [hempty, combineEffects]

/-- Witness for the amended C6 at a concrete call. -/
theorem combine_empty_dir_no_input_witness :
    combine_tracks "out.m4a" "recordings" false false ["readme.txt"]
        = CombineResult.noInput
    ∧ combineEffects (combine_tracks "out.m4a" "recordings" false false
        ["readme.txt"]) = [] :=
  combine_empty_dir_no_input "out.m4a" "recordings" false false
    ["readme.txt"] (Or.inl rfl) (by decide)

/-- Claim C3 at the spec's own input: the channel-map builder of the
cloud run replicates the downloader's occurrence-counter naming, but its
`channel_map.count(participant_name)` counts a string in a list of
tuples, which is always `0`, so the suffix never fires: both `Alice`
entries get the same local identifier `Alice.m4a`.  The downloader in
`utils/zoom.py`, whose `names` dictionary is correct, yields the
identifiers the claim describes (`Alice`, `Bob`, `Alice_2`). -/
theorem channel_map_collision_bug :
    cloudChannelMap ["audio-Alice", "audio-Bob", "audio-Alice"] []
      = [("Alice.m4a", "Alice"), ("Bob.m4a", "Bob"), ("Alice.m4a", "Alice")]
    ∧ ((cloudChannelMap ["audio-Alice", "audio-Bob", "audio-Alice"] []).map
        Prod.fst).count "Alice.m4a" = 2
    ∧ zoom_download_filenames ["audio-Alice", "audio-Bob", "audio-Alice"] []
      = ["Alice", "Bob", "Alice_2"] :=
  ⟨rfl, rfl, rfl⟩

/-- Claim C4: a `access_token` read with a cached token whose expiry has
not passed returns the identical cached value, performs no exchange and
leaves the state unchanged; with no cached token, or a cached token whose
(positive) expiry has passed, it performs exactly one exchange and caches
the new token with expiry `now + expires_in`.  (An expiry is always
`time.time() + expires_in` of some former exchange, hence positive in any
run after the epoch; expiry exactly `0` would be read as "not expired" by
Python's truthiness of `0.0`.) -/
theorem access_token_cache_behaviour (c : ZoomClient) (now : Nat)
    (newToken : String) (expiresIn : Nat) :
    (∀ t e, c.accessTokenState = some t → c.tokenExpiryState = some e →
        now < e → access_token c now newToken expiresIn = (t, c, 0))
    ∧ ((c.accessTokenState = none
        ∨ ∃ e, c.tokenExpiryState = some e ∧ 0 < e ∧ e ≤ now) →
        access_token c now newToken expiresIn
          = (newToken,
             { c with accessTokenState := some newToken,
                      tokenExpiryState := some (now + expiresIn) }, 1)) := by
  constructor
  · intro t e ht he hlt
    have hexp : is_token_expired c now = false := by
      unfold is_token_expired
      rw [he]
      simp
      omega
    unfold access_token
    rw [ht, hexp]
    simp
  · intro h
    have hcond : (decide (c.accessTokenState = none)
        || is_token_expired c now) = true := by
      rcases h with h | ⟨e, he, hpos, hle⟩
      · simp [h]
      · have : is_token_expired c now = true := by
          unfold is_token_expired
          rw [he]
          simp
          omega
        simp [this]
    unfold access_token
    rw [hcond]
    simp [refresh_token]

/-- Witness for C4: an unexpired cached token is returned unchanged with
no exchange; an empty cache and an expired cache each trigger exactly one
exchange installing the new token. -/
theorem access_token_cache_behaviour_witness :
    access_token ⟨"acc", "id", "sec", some "tok", some 100⟩ 50 "new" 3600
      = ("tok", ⟨"acc", "id", "sec", some "tok", some 100⟩, 0)
    ∧ access_token ⟨"acc", "id", "sec", none, none⟩ 50 "new" 3600
      = ("new", ⟨"acc", "id", "sec", some "new", some 3650⟩, 1)
    ∧ access_token ⟨"acc", "id", "sec", some "tok", some 100⟩ 100 "new" 3600
      = ("new", ⟨"acc", "id", "sec", some "new", some 3700⟩, 1) := by
  refine ⟨?_, ?_, ?_⟩
  · exact (access_token_cache_behaviour
      ⟨"acc", "id", "sec", some "tok", some 100⟩ 50 "new" 3600).1
      "tok" 100 rfl rfl (by decide)
  · exact (access_token_cache_behaviour
      ⟨"acc", "id", "sec", none, none⟩ 50 "new" 3600).2 (Or.inl rfl)
  · exact (access_token_cache_behaviour
      ⟨"acc", "id", "sec", some "tok", some 100⟩ 100 "new" 3600).2
      (Or.inr ⟨100, rfl, by decide, by decide⟩)

/-- Claim C7: a run for which the provider returns no meetings (or no
`meetings` key at all) terminates cleanly: no error, an empty effect
trace — so no directory creation, no download, no combine, no
transcription, no file write. -/
theorem no_meetings_clean_exit (env : Env)
    (h : env.meetings = none ∨ env.meetings = some []) :
    cloudMain env = ([], RunResult.noMeetings) := by
  rcases h with h | h <;> simp [cloudMain, h]

/-- Witness for C7 at a concrete environment whose meeting list is
empty. -/
theorem no_meetings_clean_exit_witness :
    cloudMain
      { meetings := some []
      , pafs := [(⟨"audio-Alice", "u1"⟩, FetchOutcome.response 200 [7])]
      , initialFs := [("combined_audio.m4a", [1, 2, 3])]
      , ffmpegExit := true
      , ffmpegOutput := [9]
      , transcriptResult := some ⟨1, []⟩ }
      = ([], RunResult.noMeetings) :=
  no_meetings_clean_exit _ (Or.inr rfl)

/-- Counterexample to claim C8 as stated: the first fetch returns a
non-success outcome from the provider (HTTP 404), yet the run does not
abort there — the error body is written to the local file, the later
download proceeds, and the loop completes with both entries in the
channel map.  The download code never checks the response status. -/
theorem download_failure_counterexample :
    (downloadLoop [(⟨"audio-Alice", "u1"⟩, FetchOutcome.response 404 [0]),
        (⟨"audio-Bob", "u2"⟩, FetchOutcome.response 200 [1])] [] []).2.2
      = some [("Alice.m4a", "Alice"), ("Bob.m4a", "Bob")]
    ∧ fetchUrls (downloadLoop [(⟨"audio-Alice", "u1"⟩, FetchOutcome.response 404 [0]),
        (⟨"audio-Bob", "u2"⟩, FetchOutcome.response 200 [1])] [] []).1
      = ["u1", "u2"]
    ∧ Effect.writeFile "tmp/Alice.m4a" [0]
        ∈ (downloadLoop [(⟨"audio-Alice", "u1"⟩, FetchOutcome.response 404 [0]),
            (⟨"audio-Bob", "u2"⟩, FetchOutcome.response 200 [1])] [] []).1 := by
  refine ⟨rfl, rfl, ?_⟩
  simp [downloadLoop, cloudLocalEntry, participantNameOf, pySplitChar,
    pySplitCharAux, pyStrip, pyEqStrPair]

/-- Claim C8 (amended): only a transport-level exception during a fetch
aborts the run, and then it does so at that point: every earlier file was
fetched exactly once in order (no retry), the failing URL was fetched
once, and no later file is fetched.  An HTTP error response does not
abort: its body is written and the loop continues. -/
theorem download_exception_aborts (pre rest : List (PAFile × FetchOutcome))
    (f : PAFile) (channel_map : List (String × String))
    (fs : List (String × List Nat))
    (hpre : ∀ x ∈ pre, x.2 ≠ FetchOutcome.exn) :
    (downloadLoop (pre ++ (f, FetchOutcome.exn) :: rest) channel_map fs).2.2
      = none
    ∧ fetchUrls (downloadLoop (pre ++ (f, FetchOutcome.exn) :: rest)
        channel_map fs).1
      = pre.map (fun x => x.1.download_url) ++ [f.download_url] := by
  induction pre generalizing channel_map fs with
  | nil => exact ⟨rfl, rfl⟩
  | cons a t ih =>
    obtain ⟨pa, oa⟩ := a
    cases oa with
    | exn => exact (hpre (pa, FetchOutcome.exn) (by simp) rfl).elim
    | response st content =>
      have h' : ∀ x ∈ t, x.2 ≠ FetchOutcome.exn :=
        fun x hx => hpre x (by simp [hx])
      have hr := ih (channel_map ++ [cloudLocalEntry channel_map pa.file_name])
        (fsWrite fs ("tmp/" ++ (cloudLocalEntry channel_map pa.file_name).1)
          content) h'
      constructor
      · simpa [downloadLoop] using hr.1
      · simp only [List.cons_append, downloadLoop, fetchUrls,
          List.filterMap_cons] at hr ⊢
        simp [hr.2]

/-- Witness for the amended C8: with one successful download before an
exception and one file after it, the loop aborts after fetching exactly
the first two URLs. -/
theorem download_exception_aborts_witness :
    (downloadLoop [(⟨"audio-Alice", "u1"⟩, FetchOutcome.response 200 [0]),
        (⟨"audio-Bob", "u2"⟩, FetchOutcome.exn),
        (⟨"audio-Carol", "u3"⟩, FetchOutcome.response 200 [2])] [] []).2.2
      = none
    ∧ fetchUrls (downloadLoop [(⟨"audio-Alice", "u1"⟩, FetchOutcome.response 200 [0]),
        (⟨"audio-Bob", "u2"⟩, FetchOutcome.exn),
        (⟨"audio-Carol", "u3"⟩, FetchOutcome.response 200 [2])] [] []).1
      = ["u1", "u2"] := by
  have h := download_exception_aborts
    [(⟨"audio-Alice", "u1"⟩, FetchOutcome.response 200 [0])]
    [(⟨"audio-Carol", "u3"⟩, FetchOutcome.response 200 [2])]
    ⟨"audio-Bob", "u2"⟩ [] [] (by decide)
  exact ⟨h.1, h.2⟩

/-- Counterexample to claim C9 as stated: in an end-to-end run whose
combined output path exists beforehand, the run removes that pre-existing
file with `os.remove` before ever reaching the combiner's guard, and then
completes — the pre-existing output is destroyed outside the guarded
check (the combiner is moreover invoked with `safe=False`). -/
theorem combined_destroyed_counterexample :
    Effect.removeFile "combined_audio.m4a"
      ∈ (cloudMain { meetings := some ["uuid1"]
                   , pafs := [(⟨"audio-Alice", "u1"⟩, FetchOutcome.response 200 [7])]
                   , initialFs := [("combined_audio.m4a", [1, 2, 3])]
                   , ffmpegExit := true
                   , ffmpegOutput := [9]
                   , transcriptResult := some ⟨1, []⟩ }).1
    ∧ (cloudMain { meetings := some ["uuid1"]
                 , pafs := [(⟨"audio-Alice", "u1"⟩, FetchOutcome.response 200 [7])]
                 , initialFs := [("combined_audio.m4a", [1, 2, 3])]
                 , ffmpegExit := true
                 , ffmpegOutput := [9]
                 , transcriptResult := some ⟨1, []⟩ }).2
      = RunResult.completed "uuid1" 1 [] := by
  decide

/-- Claim C9 (amended): the combined output file has a single writer —
at most one tool invocation per run, and no direct file write ever
targets the combined path — but that write is not protected by the
combiner's overwrite check: every invoked command carries the `-y`
overwrite flag (the run calls the combiner with `safe=False`), and any
run that survives its downloads while the combined path pre-exists
removes that file beforehand, so a pre-existing combined output is
destroyed deliberately, outside the guarded check. -/
theorem combined_output_single_writer_guard_bypassed (env : Env) :
    (∀ b, Effect.writeFile "combined_audio.m4a" b ∉ (cloudMain env).1)
    ∧ (cloudMain env).1.countP isInvokeFfmpeg ≤ 1
    ∧ (∀ cmd, Effect.invokeFfmpeg cmd ∈ (cloudMain env).1 →
        cmd[1]? = some "-y" ∧ cmd.getLast? = some "combined_audio.m4a")
    ∧ (∀ u rest, env.meetings = some (u :: rest) →
        fsExists env.initialFs "combined_audio.m4a" = true →
        (cloudMain env).2 ≠ RunResult.downloadError →
        Effect.removeFile "combined_audio.m4a" ∈ (cloudMain env).1) := by
  rcases cloudMain_structure env with ⟨hcm, hmt⟩ |
    ⟨removeTr, tail, htr, hrem, hremIf, htail⟩
  · refine ⟨?_, ?_, ?_, ?_⟩
    · intro b hmem
      rw [hcm] at hmem
      simp at hmem
    · rw [hcm]
      simp
    · intro cmd hmem
      rw [hcm] at hmem
      simp at hmem
    · intro u rest hM _ _
      rcases hmt with h | h <;> rw [h] at hM <;> simp at hM
  · have hdlShape := downloadLoop_effects_shape env.pafs [] env.initialFs
    refine ⟨?_, ?_, ?_, ?_⟩
    · intro b hmem
      rw [htr] at hmem
      rcases List.mem_append.mp hmem with h12 | h4
      · rcases List.mem_append.mp h12 with h1 | h3
        · rcases List.mem_cons.mp h1 with h0 | h2
          · exact Effect.noConfusion h0
          · rcases hdlShape _ h2 with ⟨u', he⟩ | ⟨s, c, he⟩
            · exact Effect.noConfusion he
            · injection he with h1a _
              exact tmp_ne_combined s h1a.symm
        · rcases hrem with rfl | rfl
          · simp at h3
          · simp at h3
      · rcases htail with rfl | ⟨cmd, post, rfl, _, _, hpost⟩
        · simp at h4
        · rcases List.mem_cons.mp h4 with h0 | hp
          · exact Effect.noConfusion h0
          · rcases hpost with rfl | rfl | rfl <;> simp at hp
    · rw [htr]
      have h1 : (downloadLoop env.pafs [] env.initialFs).1.countP
          isInvokeFfmpeg = 0 := downloadLoop_countP_invoke _ _ _
      have h2 : removeTr.countP isInvokeFfmpeg = 0 := by
        rcases hrem with rfl | rfl <;> simp [isInvokeFfmpeg]
      have h3 : tail.countP isInvokeFfmpeg ≤ 1 := by
        rcases htail with rfl | ⟨cmd, post, rfl, _, _, hpost⟩
        · simp
        · rcases hpost with rfl | rfl | rfl <;>
            simp [isInvokeFfmpeg, List.countP_cons]
      have h0 : isInvokeFfmpeg (Effect.makeDirs "tmp") = false := rfl
      simp only [List.cons_append, List.countP_cons, List.countP_append,
        h0, h1, h2, Bool.false_eq_true, if_false]
      omega
    · intro cmd hmem
      rw [htr] at hmem
      rcases List.mem_append.mp hmem with h12 | h4
      · rcases List.mem_append.mp h12 with h1 | h3
        · rcases List.mem_cons.mp h1 with h0 | h2
          · exact Effect.noConfusion h0
          · rcases hdlShape _ h2 with ⟨u', he⟩ | ⟨s, c, he⟩ <;>
              exact Effect.noConfusion he
        · rcases hrem with rfl | rfl
          · simp at h3
          · simp at h3
      · rcases htail with rfl | ⟨cmd0, post, rfl, hflag, hlast, hpost⟩
        · simp at h4
        · rcases List.mem_cons.mp h4 with h0 | hp
          · injection h0 with h1a
            subst h1a
            exact ⟨hflag, hlast⟩
          · rcases hpost with rfl | rfl | rfl <;> simp at hp
    · intro u rest hM hfs0 hres
      have hpres : (downloadLoop env.pafs [] env.initialFs).2.1.lookup
          "combined_audio.m4a" = env.initialFs.lookup "combined_audio.m4a" :=
        downloadLoop_lookup_preserved _ _ _ _
          (fun s h => tmp_ne_combined s h.symm)
      have hfs1 : fsExists (downloadLoop env.pafs [] env.initialFs).2.1
          "combined_audio.m4a" = true := by
        unfold fsExists at hfs0 ⊢
        rw [hpres]
        exact hfs0
      have hremEq := hremIf hres hfs1
      rw [htr, hremEq]
      simp

/-- Witness for the amended C9: in a concrete run with a pre-existing
combined output and one successful download, the removal of the
pre-existing file is in the trace. -/
theorem combined_output_single_writer_guard_bypassed_witness :
    Effect.removeFile "combined_audio.m4a"
      ∈ (cloudMain { meetings := some ["m2"]
                   , pafs := [(⟨"rec-Dana", "u9"⟩, FetchOutcome.response 200 [4])]
                   , initialFs := [("combined_audio.m4a", [5])]
                   , ffmpegExit := false
                   , ffmpegOutput := []
                   , transcriptResult := none }).1 := by
  have h := combined_output_single_writer_guard_bypassed
    { meetings := some ["m2"]
    , pafs := [(⟨"rec-Dana", "u9"⟩, FetchOutcome.response 200 [4])]
    , initialFs := [("combined_audio.m4a", [5])]
    , ffmpegExit := false
    , ffmpegOutput := []
    , transcriptResult := none }
  exact h.2.2.2 "m2" [] rfl (by decide) (by decide)

end ZoomTranscribe
